import Mathlib

/-!
Verification of the ToastMetrics application (`src/toastmetrics_app.py`) against
its specification.

Shallow-embedding conventions used throughout this file:

* A pandas DataFrame is a `Df`: a header (list of column names) together with a
  list of rows, each row a list of cells.  A cell (`Cell`) is raw text, a
  number, or null (pandas NaN / None).  Cell access by column name
  (`getCellRow`) yields `Cell.null` for an absent column or a short row, which
  is how pandas represents missing values after a column-aligning concat.
* Numeric values are modelled as exact rationals (`Q`, kept in lowest terms by
  construction of the arithmetic) rather than IEEE floats; the quantities the
  program manipulates are small decimal money/count values, and no claim
  depends on floating-point rounding.
* `pd.to_numeric(errors="coerce")` is modelled by `parseNumber`, a decimal
  parser (optional sign, integer and fractional digit parts); any string it
  does not accept coerces to null, exactly as unparsable cells do in the
  source.  Scientific notation is not modelled; no claim involves it.
* Python `str.lower` is modelled on ASCII letters (`lowerCode`), and string
  comparison (`lexLt`, used by the pandas group-key sort) is code-point
  lexicographic, as for Python strings.
* `os.listdir` output is modelled as a list of `FsEntry` (regular files with
  parsed CSV content, or directories).  The source filters entries by name
  only; it never checks the entry kind.
* The sqlite3 store is a named-table map (`Store`).  `pandas.read_sql_query`
  hands the raw SQL string to `sqlite3` on a read-write connection, so the
  query model `Sql` has a read shape (SELECT) and a destructive shape
  (DROP TABLE, which sqlite autocommits); `query_database` simply runs it.
* `sort_values` is modelled as a stable insertion sort (`sSort`).  pandas'
  default quicksort is not guaranteed stable; where a claim depends on tie
  order this is noted, and the group-key ordering produced by
  `groupby(sort=True)` — which the model reproduces — is what settles it.
* The `if __name__ == "__main__"` block is `mainRun`: it returns the printed
  diagnostics, whether persistence was invoked, the resulting store, and the
  process exit status.  A bare `raise SystemExit` terminates a Python process
  with status 0, which is how the model records it.
-/

/-- Keep the first occurrence of each element, dropping later duplicates
(helper for pandas column-union and group-key collection). -/
def firstOccurAux {α : Type} [DecidableEq α] (seen : List α) : List α → List α
  | [] => []
  | a :: l => if a ∈ seen then firstOccurAux seen l else a :: firstOccurAux (a :: seen) l

def firstOccur {α : Type} [DecidableEq α] (l : List α) : List α :=
  firstOccurAux [] l

/-- Stable insertion: `x` is placed before the first element `y` with
`lt y x = false`, i.e. after every element that must strictly precede it. -/
def sInsert {α : Type} (lt : α → α → Bool) (x : α) : List α → List α
  | [] => [x]
  | y :: ys => if lt y x then y :: sInsert lt x ys else x :: y :: ys

/-- Stable insertion sort; elements earlier in the input stay before equal
elements inserted later. -/
def sSort {α : Type} (lt : α → α → Bool) : List α → List α
  | [] => []
  | x :: xs => sInsert lt x (sSort lt xs)

/-- Ordering produced by the stable sort on an input that was pairwise `K`:
either a strict comparison ordered the pair, or the pair is tied and the input
relation `K` is preserved. -/
def tieLex {α : Type} (lt : α → α → Bool) (K : α → α → Prop) (a b : α) : Prop :=
  lt a b = true ∨ (lt a b = false ∧ lt b a = false ∧ K a b)

/-- Positional list access (total, returning an `Option`). -/
def nth {α : Type} : List α → Nat → Option α
  | [], _ => none
  | a :: _, 0 => some a
  | _ :: t, n + 1 => nth t n

/-- Exact rational standing in for the float values pandas uses.  The value is
`num / (den1 + 1)`; storing the predecessor of the denominator keeps it
positive by construction. -/
structure Q where
  num : Int
  den1 : Nat
deriving DecidableEq

def Q.denI (q : Q) : Int := (q.den1 : Int) + 1

def Q.ofInt (n : Int) : Q := ⟨n, 0⟩

/-- Reduce `n / d` (with `d` positive) to lowest terms. -/
def Q.norm (n : Int) (d : Nat) : Q :=
  let g := Nat.gcd n.natAbs d
  if g = 0 then ⟨0, 0⟩ else ⟨n / (g : Int), d / g - 1⟩

def Q.add (a b : Q) : Q :=
  Q.norm (a.num * b.denI + b.num * a.denI) ((a.den1 + 1) * (b.den1 + 1))

/-- Strict value order on `Q` by cross multiplication. -/
def qltB (a b : Q) : Bool :=
  decide (a.num * b.denI < b.num * a.denI)

/-- Value equality on `Q` by cross multiplication. -/
def qeqB (a b : Q) : Bool :=
  decide (a.num * b.denI = b.num * a.denI)

/-- ASCII lower-casing on code points, the fragment of Python `str.lower`
this pipeline exercises. -/
def lowerCode (c : Char) : Nat :=
  if 65 ≤ c.toNat ∧ c.toNat ≤ 90 then c.toNat + 32 else c.toNat

def startsWithN : List Nat → List Nat → Bool
  | [], _ => true
  | _ :: _, [] => false
  | a :: as, b :: bs => (a == b) && startsWithN as bs

/-- Substring containment on code-point lists (Python `in` on strings). -/
def containsN (pat : List Nat) (l : List Nat) : Bool :=
  match l with
  | [] => startsWithN pat []
  | _ :: t => startsWithN pat l || containsN pat t

def endsWithN (suf l : List Nat) : Bool :=
  startsWithN suf.reverse l.reverse

/-- Code-point lexicographic order on character lists (Python string `<`). -/
def lexLt : List Char → List Char → Bool
  | [], [] => false
  | [], _ :: _ => true
  | _ :: _, [] => false
  | a :: as, b :: bs =>
    if a.toNat < b.toNat then true
    else if b.toNat < a.toNat then false
    else lexLt as bs

def strLtB (a b : String) : Bool := lexLt a.data b.data

/-- Python `str.strip` whitespace set (ASCII fragment). -/
def isSpaceChar (c : Char) : Bool :=
  c.toNat == 32 || c.toNat == 9 || c.toNat == 10 || c.toNat == 13 ||
    c.toNat == 11 || c.toNat == 12

def trimChars (l : List Char) : List Char :=
  ((l.dropWhile isSpaceChar).reverse.dropWhile isSpaceChar).reverse

def trimStr (s : String) : String := ⟨trimChars s.data⟩

def isDigitC (c : Char) : Bool := 48 ≤ c.toNat && c.toNat ≤ 57

def digitsVal (l : List Char) : Nat :=
  l.foldl (fun a c => a * 10 + (c.toNat - 48)) 0

def parseSign : List Char → Int × List Char
  | '-' :: r => (-1, r)
  | '+' :: r => (1, r)
  | l => (1, l)

/-- The rational `sgn * (ip . fp)` with `k` fractional digits, reduced. -/
def mkDecQ (sgn : Int) (ip fp k : Nat) : Q :=
  Q.norm (sgn * ((ip * 10 ^ k + fp : Nat) : Int)) (10 ^ k)

/-- Model of `pd.to_numeric(..., errors="coerce")` on one cell text: trims
whitespace, accepts an optionally signed decimal numeral, and rejects (to
null) everything else. -/
def parseNumber (s : String) : Option Q :=
  let t := trimChars s.data
  let sb := parseSign t
  let ip := sb.2.takeWhile (fun c => !(c == '.'))
  let rest := sb.2.dropWhile (fun c => !(c == '.'))
  match rest with
  | [] =>
    if !ip.isEmpty && ip.all isDigitC then
      some (Q.ofInt (sb.1 * (digitsVal ip : Int)))
    else none
  | _ :: frac =>
    if frac.all (fun c => !(c == '.')) && (!ip.isEmpty || !frac.isEmpty) &&
        ip.all isDigitC && frac.all isDigitC then
      some (mkDecQ sb.1 (digitsVal ip) (digitsVal frac) frac.length)
    else none

/-- `str.replace(",", "").str.replace("$", "")` from `normalize_menu_df`
(literal replacement, the pandas 2.x default). -/
def stripMoneyChars (l : List Char) : List Char :=
  l.filter (fun c => !(c == ',' || c == '$'))

/-- One cell of a DataFrame: raw text, a numeric value, or null (NaN). -/
inductive Cell where
  | str (s : String)
  | num (q : Q)
  | null
deriving DecidableEq

def digitChar (d : Nat) : Char := Char.ofNat (48 + d)

def natChars : Nat → Nat → List Char
  | 0, _ => []
  | f + 1, n => if n < 10 then [digitChar n] else natChars f (n / 10) ++ [digitChar (n % 10)]

def intChars (i : Int) : List Char :=
  if i < 0 then '-' :: natChars i.natAbs i.natAbs else natChars (i.natAbs + 1) i.natAbs

/-- Model of Python `str()` applied by `astype(str)`: text is unchanged, NaN
renders as "nan", and a numeric cell renders as its decimal text (exact for
the integer-valued case; in the pipeline `astype(str)` only ever sees cells
freshly read from CSV, which are text). -/
def pyStr : Cell → String
  | .str s => s
  | .num q => if q.den1 = 0 then ⟨intChars q.num ++ ['.', '0']⟩
              else ⟨intChars q.num ++ '/' :: natChars (q.den1 + 2) (q.den1 + 1)⟩
  | .null => "nan"

/-- The per-cell action of `normalize_menu_df` on a configured numeric column:
`astype(str)`, strip `,` and `$`, then `to_numeric(errors="coerce")`. -/
def normalizeCell (c : Cell) : Cell :=
  match parseNumber ⟨stripMoneyChars (pyStr c).data⟩ with
  | some q => Cell.num q
  | none => Cell.null

/-- The numeric columns of `normalize_menu_df`. -/
def numCols : List String :=
  ["Avg Price", "Quantity", "Gross Sales", "Discount Amount", "Net Sales"]

/-- Apply `normalizeCell` at every position whose (stripped) column name is in
`numCols`; other cells are untouched. -/
def normRow : List String → List Cell → List Cell
  | _, [] => []
  | [], c :: cs => c :: normRow [] cs
  | col :: hs, c :: cs =>
    (if col ∈ numCols then normalizeCell c else c) :: normRow hs cs

/-- A DataFrame: header of column names and rows of cells. -/
structure Df where
  header : List String
  rows : List (List Cell)
deriving DecidableEq

/-- `normalize_menu_df` (src lines 32-41): strip column names, then coerce
every present configured numeric column, cell by cell. -/
def normalize_menu_df (df : Df) : Df :=
  ⟨df.header.map trimStr, df.rows.map (normRow (df.header.map trimStr))⟩

/-- Index of the first column with the given name. -/
def colIdx (h : List String) (c : String) : Option Nat :=
  match h with
  | [] => none
  | x :: t => if x = c then some 0 else (colIdx t c).map (fun i => i + 1)

/-- Cell of a row under a column name; null for an absent column or short
row (pandas missing value). -/
def getCellRow (h : List String) (r : List Cell) (c : String) : Cell :=
  match colIdx h c with
  | some i => (nth r i).getD Cell.null
  | none => Cell.null

/-- Contribution of one cell to a pandas sum: numeric cells count, nulls are
skipped (contribute 0). -/
def cellToQ : Cell → Q
  | .num q => q
  | _ => Q.ofInt 0

/-- Order on group-key cells used by `groupby(sort=True)`: numbers by value,
strings by code-point order.  Mixed-type key columns would raise in pandas;
the model extends the order totally (null < num < str), which no claim
exercises. -/
def cellKeyLt : Cell → Cell → Bool
  | .null, .num _ => true
  | .null, .str _ => true
  | .num a, .num b => qltB a b
  | .num _, .str _ => true
  | .str a, .str b => strLtB a b
  | _, _ => false

/-- Distinct non-null group keys of the "Item Name" column, in first
encounter order (`groupby` drops NaN keys). -/
def encounterKeys (df : Df) : List Cell :=
  firstOccur (df.rows.filterMap (fun r =>
    match getCellRow df.header r "Item Name" with
    | Cell.null => none
    | k => some k))

/-- Group keys as `groupby(sort=True)` emits them: sorted ascending. -/
def sortedKeys (df : Df) : List Cell :=
  sSort cellKeyLt (encounterKeys df)

/-- Sum of column `col` over the rows of one "Item Name" group (pandas sum:
nulls excluded, empty contributions are 0). -/
def itemSum (df : Df) (col : String) (key : Cell) : Q :=
  ((df.rows.filter (fun r => decide (getCellRow df.header r "Item Name" = key))).map
    (fun r => cellToQ (getCellRow df.header r col))).foldl Q.add (Q.ofInt 0)

/-- Rows of `df.groupby("Item Name", as_index=False)[col].sum()`: one
(key, sum) pair per distinct key, keys ascending. -/
def groupSumPairs (df : Df) (col : String) : List (Cell × Q) :=
  (sortedKeys df).map (fun k => (k, itemSum df col k))

def ltPairDesc (a b : Cell × Q) : Bool := qltB b.2 a.2

def ltPairAsc (a b : Cell × Q) : Bool := qltB a.2 b.2

/-- `top_items_by_quantity` (src lines 63-70): group by Item Name, sum
Quantity, sort descending, head n.  A result row is a (key, sum) pair. -/
def top_items_by_quantity (df : Df) (n : Nat) : List (Cell × Q) :=
  (sSort ltPairDesc (groupSumPairs df "Quantity")).take n

/-- `top_items_by_revenue` (src lines 74-81). -/
def top_items_by_revenue (df : Df) (n : Nat) : List (Cell × Q) :=
  (sSort ltPairDesc (groupSumPairs df "Net Sales")).take n

/-- `bottom_items_by_quantity` (src lines 92-99): ascending sort. -/
def bottom_items_by_quantity (df : Df) (n : Nat) : List (Cell × Q) :=
  (sSort ltPairAsc (groupSumPairs df "Quantity")).take n

/-- The `df[df["Sales Category"] == category]` filter. -/
def filterCategory (df : Df) (category : String) : Df :=
  ⟨df.header, df.rows.filter (fun r =>
    decide (getCellRow df.header r "Sales Category" = Cell.str category))⟩

/-- `bottom_items_by_category` (src lines 102-110). -/
def bottom_items_by_category (df : Df) (category : String) (n : Nat) : List (Cell × Q) :=
  (sSort ltPairAsc (groupSumPairs (filterCategory df category) "Quantity")).take n

/-- Whether `str.contains("total", case=False, na=False)` matches a cell:
only text cells can match; null and numeric cells give False (`na=False`). -/
def cellContainsTotal : Cell → Bool
  | .str s => containsN ("total".data.map lowerCode) (s.data.map lowerCode)
  | _ => false

/-- The total-row filter of the entry point (src line 130):
`df[~df["Item Name"].str.contains("total", case=False, na=False)]`. -/
def filterTotals (df : Df) : Df :=
  ⟨df.header, df.rows.filter (fun r =>
    !cellContainsTotal (getCellRow df.header r "Item Name"))⟩

/-- One entry of an `os.listdir` result: a regular file (with its parsed CSV
content) or a directory. -/
inductive FsEntry where
  | file (name : String) (header : List String) (rows : List (List String))
  | dir (name : String)
deriving DecidableEq

def entryName : FsEntry → String
  | .file name _ _ => name
  | .dir name => name

/-- The name test of `find_menu_csvs_in_folder`: lowercased name contains
"menu-breakdown" and ends with ".csv". -/
def nameMatchesB (s : String) : Bool :=
  containsN ("menu-breakdown".data.map lowerCode) (s.data.map lowerCode) &&
    endsWithN (".csv".data.map lowerCode) (s.data.map lowerCode)

/-- `find_menu_csvs_in_folder` (src lines 10-17): keep every directory entry
whose name matches; the entry kind is never inspected. -/
def find_menu_csvs_in_folder (folder : List FsEntry) : List FsEntry :=
  folder.filter (fun e => nameMatchesB (entryName e))

/-- `os.path.splitext(...)[0]`: drop the extension starting at the last dot,
unless there is no dot or only leading dots. -/
def splitextRoot (s : String) : String :=
  let l := s.data
  let afterDot := l.reverse.takeWhile (fun c => !(c == '.'))
  if afterDot.length = l.length then s
  else if (l.take (l.length - afterDot.length - 1)).all (fun c => c == '.') then s
  else ⟨l.take (l.length - afterDot.length - 1)⟩

/-- `pd.read_csv`: parse a regular file into a DataFrame of text cells; a
directory path raises (None).  (pandas' numeric type inference is immaterial
here: `normalize_menu_df` re-stringifies configured columns, and no claim
reads an unconfigured numeric column before normalization.) -/
def readCsvDf : FsEntry → Option Df
  | .file _ h rows => some ⟨h, rows.map (fun r => r.map Cell.str)⟩
  | .dir _ => none

/-- Column assignment `df[c] = v` (scalar): overwrite an existing column in
place or append a new one. -/
def setColAll (df : Df) (c : String) (v : Cell) : Df :=
  match colIdx df.header c with
  | some i => ⟨df.header, df.rows.map (fun r => r.set i v)⟩
  | none => ⟨df.header ++ [c], df.rows.map (fun r => r ++ [v])⟩

/-- `df["Week"] = label` from `load_all_weeks`. -/
def addWeekCol (df : Df) (label : String) : Df :=
  setColAll df "Week" (Cell.str label)

/-- `pd.concat(..., ignore_index=True)`: headers united in order of first
appearance; every row re-indexed to the united header, missing columns
becoming null. -/
def concatDfs (dfs : List Df) : Df :=
  let H := firstOccur ((dfs.map Df.header).flatten)
  ⟨H, (dfs.map (fun d => d.rows.map (fun r => H.map (fun c => getCellRow d.header r c)))).flatten⟩

/-- Sequence a fallible map over a list (all-or-nothing, like exceptions). -/
def optMap {α β : Type} (f : α → Option β) : List α → Option (List β)
  | [] => some []
  | a :: l =>
    match f a, optMap f l with
    | some b, some bs => some (b :: bs)
    | _, _ => none

/-- `load_all_weeks` (src lines 44-59): read, normalize and Week-tag every
matching CSV, concatenating; an empty DataFrame when none match; None models
an unhandled read error. -/
def load_all_weeks (folder : List FsEntry) : Option Df :=
  match optMap (fun e => (readCsvDf e).map (fun d =>
      addWeekCol (normalize_menu_df d) (splitextRoot (entryName e))))
      (find_menu_csvs_in_folder folder) with
  | none => none
  | some [] => some ⟨[], []⟩
  | some (d :: ds) => some (concatDfs (d :: ds))

/-- The relational store: named tables. -/
structure Store where
  tables : List (String × Df)
deriving DecidableEq

def lookupTable (s : Store) (t : String) : Option Df :=
  (s.tables.find? (fun p => p.1 == t)).map (fun p => p.2)

def removeTable (s : Store) (t : String) : Store :=
  ⟨s.tables.filter (fun p => !(p.1 == t))⟩

def replaceTable (s : Store) (t : String) (df : Df) : Store :=
  ⟨(removeTable s t).tables ++ [(t, df)]⟩

/-- `save_to_database` (src lines 84-89): `to_sql("sales", ...,
if_exists="replace")`, i.e. full replacement of the "sales" table. -/
def save_to_database (df : Df) (s : Store) : Store :=
  replaceTable s "sales" df

/-- Modelled from the library semantics of `sqlite3`/`pandas.read_sql_query`:
the source passes the raw SQL string to `cursor.execute` on an ordinary
read-write connection, so besides SELECT shapes, destructive statements such
as DROP TABLE execute as well (sqlite autocommits DDL; pandas then fails to
build a frame, returning no rows). -/
inductive Sql where
  | selectAll (table : String)
  | dropTable (table : String)
deriving DecidableEq

def sqliteExec : Sql → Store → Store × Option Df
  | .selectAll t, s => (s, lookupTable s t)
  | .dropTable t, s => (removeTable s t, none)

/-- `query_database` (src lines 113-118): connect, execute the query string,
return the fetched rows.  The resulting store is the first component. -/
def query_database (q : Sql) (s : Store) : Store × Option Df :=
  sqliteExec q s

/-- Observable outcome of the entry-point run: lines printed, whether
`save_to_database` was called, the resulting store, and the process exit
status. -/
structure MainResult where
  printed : List String
  saveCalled : Bool
  store : Store
  exitCode : Nat
deriving DecidableEq

def noDataMsg : String := "No data loaded - check folder path / file names."

def savedMsg : String := "Data saved to Projects\\ToastMetrics\\toastmetrics.db"

/-- The `__main__` block (src lines 121-133) up to persistence: load all
weeks; if the result is empty, print the diagnostic and `raise SystemExit`
(a bare SystemExit exits the Python process with status 0); otherwise filter
total rows and save.  None models an unhandled exception while loading. -/
def mainRun (folder : List FsEntry) (s0 : Store) : Option MainResult :=
  (load_all_weeks folder).map (fun df =>
    if df.rows.isEmpty then
      ⟨[noDataMsg], false, s0, 0⟩
    else
      ⟨[savedMsg], true, save_to_database (filterTotals df) s0, 0⟩)

/-- Tie discipline of a ranking output: any two result rows whose summed
measures are equal (as values) appear with keys in weakly ascending
group-key order. -/
def tieKeyOrder (a b : Cell × Q) : Prop :=
  qeqB a.2 b.2 = true →
    (cellKeyLt a.1 b.1 = true ∨ (cellKeyLt a.1 b.1 = false ∧ cellKeyLt b.1 a.1 = false))

/-- First spec-scenario input file (C5). -/
def week1File : FsEntry :=
  .file "week1-menu-breakdown.csv"
    ["Item Name", "Sales Category", "Avg Price", "Quantity", "Gross Sales", "Discount Amount", "Net Sales"]
    [["Burger", "Food", "$5.00", "10", "$50.00", "$0.00", "$50.00"]]

/-- Second spec-scenario input file (C5). -/
def week2File : FsEntry :=
  .file "week2-menu-breakdown.csv"
    ["Item Name", "Sales Category", "Avg Price", "Quantity", "Gross Sales", "Discount Amount", "Net Sales"]
    [["Burger", "Food", "$5.00", "5", "$25.00", "$0.00", "$25.00"]]

def folderC5 : List FsEntry := [week1File, week2File]

/-- Two groups with equal sums, encountered in the order B, A. -/
def dfC3 : Df :=
  ⟨["Item Name", "Quantity"],
   [[Cell.str "B", Cell.num ⟨5, 0⟩], [Cell.str "A", Cell.num ⟨5, 0⟩]]⟩

/-- One item with a null Quantity cell and a numeric one. -/
def dfC6 : Df :=
  ⟨["Item Name", "Quantity"],
   [[Cell.str "Taco", Cell.null], [Cell.str "Taco", Cell.num ⟨4, 0⟩]]⟩

/-- A folder whose one CSV contains a total row and an item row. -/
def folderC7 : List FsEntry :=
  [.file "w-menu-breakdown.csv" ["Item Name", "Quantity"]
    [["Grand Total", "99"], ["Taco", "3"]]]

/-- The Unified Table `load_all_weeks` produces from `folderC7`. -/
def dfC7 : Df :=
  ⟨["Item Name", "Quantity", "Week"],
   [[Cell.str "Grand Total", Cell.num ⟨99, 0⟩, Cell.str "w-menu-breakdown"],
    [Cell.str "Taco", Cell.num ⟨3, 0⟩, Cell.str "w-menu-breakdown"]]⟩

/-- The entry-point outcome on `folderC7` from an empty store. -/
def resC7 : MainResult :=
  ⟨[savedMsg], true, ⟨[("sales", filterTotals dfC7)]⟩, 0⟩

/-- Two items with distinct summed quantities. -/
def dfC9 : Df :=
  ⟨["Item Name", "Quantity"],
   [[Cell.str "A", Cell.num ⟨1, 0⟩], [Cell.str "B", Cell.num ⟨3, 0⟩]]⟩

/-- A table with a null Item Name row. -/
def dfC10 : Df :=
  ⟨["Item Name", "Quantity"], [[Cell.null, Cell.num ⟨2, 0⟩]]⟩

/-- Table with a formatted price, an unparsable quantity and a text column. -/
def dfC4 : Df :=
  ⟨["Avg Price ", "Quantity", "Item Name"],
   [[Cell.str "$1,000.50", Cell.str "N/A", Cell.str "Taco"]]⟩

def rowC4 : List Cell := [Cell.str "$1,000.50", Cell.str "N/A", Cell.str "Taco"]

/-- A store holding a nonempty "sales" table. -/
def dfSalesC1 : Df := ⟨["Item Name"], [[Cell.str "Burger"]]⟩

def storeC1 : Store := ⟨[("sales", dfSalesC1)]⟩

theorem denI_pos (a : Q) : 0 < a.denI := by
  unfold Q.denI
  have h : (0 : Int) ≤ (a.den1 : Int) := Int.ofNat_nonneg _
  omega

theorem qltB_iff (a b : Q) : qltB a b = true ↔ a.num * b.denI < b.num * a.denI := by
  simp [qltB]

theorem qltB_false_iff (a b : Q) : qltB a b = false ↔ b.num * a.denI ≤ a.num * b.denI := by
  simp [qltB, not_lt]

theorem qltB_irrefl (a : Q) : qltB a a = false := by
  simp [qltB]

theorem qltB_asymm (a b : Q) (h : qltB a b = true) : qltB b a = false := by
  rw [qltB_iff] at h
  rw [qltB_false_iff]
  exact h.le

theorem qeqB_cross (a b : Q) (h : qeqB a b = true) : a.num * b.denI = b.num * a.denI := by
  simpa [qeqB] using h

theorem qeqB_symm (a b : Q) : qeqB a b = qeqB b a := by
  simp [qeqB, eq_comm]

theorem qltB_total_cross (a b : Q) (h1 : qltB a b = false) (h2 : qltB b a = false) :
    qeqB a b = true := by
  rw [qltB_false_iff] at h1 h2
  simp only [qeqB, decide_eq_true_eq]
  exact le_antisymm h2 h1

theorem qeq_not_lt (a b : Q) (h : qeqB a b = true) : qltB a b = false :=
  (qltB_false_iff a b).mpr (qeqB_cross a b h).ge

theorem qeq_not_lt' (a b : Q) (h : qeqB a b = true) : qltB b a = false :=
  (qltB_false_iff b a).mpr (qeqB_cross a b h).le

theorem qle_lt_trans (a b c : Q) (h1 : qltB b a = false) (h2 : qltB b c = true) :
    qltB a c = true := by
  rw [qltB_false_iff] at h1
  rw [qltB_iff] at h2
  rw [qltB_iff]
  have ha := denI_pos a
  have hb := denI_pos b
  have hc := denI_pos c
  have k1 : a.num * b.denI * c.denI ≤ b.num * a.denI * c.denI :=
    mul_le_mul_of_nonneg_right h1 hc.le
  have k2 : b.num * c.denI * a.denI < c.num * b.denI * a.denI :=
    mul_lt_mul_of_pos_right h2 ha
  have key : a.num * c.denI * b.denI < c.num * a.denI * b.denI := by nlinarith
  exact lt_of_mul_lt_mul_right key hb.le

theorem qlt_le_trans (a b c : Q) (h1 : qltB a b = true) (h2 : qltB c b = false) :
    qltB a c = true := by
  rw [qltB_iff] at h1
  rw [qltB_false_iff] at h2
  rw [qltB_iff]
  have ha := denI_pos a
  have hb := denI_pos b
  have hc := denI_pos c
  have k1 : a.num * b.denI * c.denI < b.num * a.denI * c.denI :=
    mul_lt_mul_of_pos_right h1 hc
  have k2 : b.num * c.denI * a.denI ≤ c.num * b.denI * a.denI :=
    mul_le_mul_of_nonneg_right h2 ha.le
  have key : a.num * c.denI * b.denI < c.num * a.denI * b.denI := by nlinarith
  exact lt_of_mul_lt_mul_right key hb.le

theorem qH2 (x y e : Q) (h1 : qltB y x = false) (h2 : qltB y e = false)
    (h3 : qltB e y = false) :
    qltB x e = true ∨ (qltB x e = false ∧ qltB e x = false) := by
  cases hxe : qltB x e with
  | true => exact Or.inl rfl
  | false =>
    refine Or.inr ⟨rfl, ?_⟩
    cases hex : qltB e x with
    | false => rfl
    | true =>
      rw [qlt_le_trans e x y hex h1] at h3
      exact Bool.noConfusion h3

theorem qH2d (x y e : Q) (h1 : qltB x y = false) (h2 : qltB e y = false)
    (h3 : qltB y e = false) :
    qltB e x = true ∨ (qltB e x = false ∧ qltB x e = false) := by
  cases hex : qltB e x with
  | true => exact Or.inl rfl
  | false =>
    refine Or.inr ⟨rfl, ?_⟩
    cases hxe : qltB x e with
    | false => rfl
    | true =>
      rw [qlt_le_trans x e y hxe h3] at h1
      exact Bool.noConfusion h1

theorem lexLt_trans : ∀ (x y z : List Char),
    lexLt x y = true → lexLt y z = true → lexLt x z = true := by
  intro x
  induction x with
  | nil =>
    intro y z h1 h2
    cases y with
    | nil => exact absurd h1 (by simp [lexLt])
    | cons b bs =>
      cases z with
      | nil => exact absurd h2 (by simp [lexLt])
      | cons c cs => simp [lexLt]
  | cons a as ih =>
    intro y z h1 h2
    cases y with
    | nil => exact absurd h1 (by simp [lexLt])
    | cons b bs =>
      cases z with
      | nil => exact absurd h2 (by simp [lexLt])
      | cons c cs =>
        simp only [lexLt] at h1 h2 ⊢
        rcases Nat.lt_trichotomy a.toNat b.toNat with hab | hab | hab
        · rcases Nat.lt_trichotomy b.toNat c.toNat with hbc | hbc | hbc
          · simp [Nat.lt_trans hab hbc]
          · have hac : a.toNat < c.toNat := by omega
            simp [hac]
          · rw [if_neg (Nat.lt_asymm hbc), if_pos hbc] at h2
            exact absurd h2 (by simp)
        · rcases Nat.lt_trichotomy b.toNat c.toNat with hbc | hbc | hbc
          · have hac : a.toNat < c.toNat := by omega
            simp [hac]
          · rw [if_neg (by omega : ¬ a.toNat < b.toNat),
              if_neg (by omega : ¬ b.toNat < a.toNat)] at h1
            rw [if_neg (by omega : ¬ b.toNat < c.toNat),
              if_neg (by omega : ¬ c.toNat < b.toNat)] at h2
            rw [if_neg (by omega : ¬ a.toNat < c.toNat),
              if_neg (by omega : ¬ c.toNat < a.toNat)]
            exact ih bs cs h1 h2
          · rw [if_neg (Nat.lt_asymm hbc), if_pos hbc] at h2
            exact absurd h2 (by simp)
        · rw [if_neg (Nat.lt_asymm hab), if_pos hab] at h1
          exact absurd h1 (by simp)

theorem lexLt_total_eq : ∀ (x y : List Char),
    lexLt x y = false → lexLt y x = false → x = y := by
  intro x
  induction x with
  | nil =>
    intro y h1 _
    cases y with
    | nil => rfl
    | cons b bs => exact absurd h1 (by simp [lexLt])
  | cons a as ih =>
    intro y h1 h2
    cases y with
    | nil => exact absurd h2 (by simp [lexLt])
    | cons b bs =>
      simp only [lexLt] at h1 h2
      rcases Nat.lt_trichotomy a.toNat b.toNat with hab | hab | hab
      · rw [if_pos hab] at h1
        exact absurd h1 (by simp)
      · rw [if_neg (by omega : ¬ a.toNat < b.toNat),
          if_neg (by omega : ¬ b.toNat < a.toNat)] at h1
        rw [if_neg (by omega : ¬ b.toNat < a.toNat),
          if_neg (by omega : ¬ a.toNat < b.toNat)] at h2
        rw [Char.ext (UInt32.ext hab), ih bs h1 h2]
      · rw [if_pos hab] at h2
        exact absurd h2 (by simp)

theorem lexH1 (x y e : List Char) (h1 : lexLt y x = false) (h2 : lexLt y e = true) :
    lexLt x e = true := by
  cases hxe : lexLt x e with
  | true => rfl
  | false =>
    cases hex : lexLt e x with
    | true =>
      rw [lexLt_trans y e x h2 hex] at h1
      exact Bool.noConfusion h1
    | false =>
      rw [lexLt_total_eq x e hxe hex] at h1
      rw [h2] at h1
      exact Bool.noConfusion h1

theorem lexH2 (x y e : List Char) (h1 : lexLt y x = false) (h2 : lexLt y e = false)
    (h3 : lexLt e y = false) :
    lexLt x e = true ∨ (lexLt x e = false ∧ lexLt e x = false) := by
  rw [lexLt_total_eq e y h3 h2]
  cases hxy : lexLt x y with
  | true => exact Or.inl rfl
  | false => exact Or.inr ⟨rfl, h1⟩

theorem cellKeyLt_H1 : ∀ x y e : Cell,
    cellKeyLt y x = false → cellKeyLt y e = true → cellKeyLt x e = true := by
  intro x y e h1 h2
  cases x <;> cases y <;> cases e <;>
    simp only [cellKeyLt, strLtB] at h1 h2 ⊢ <;>
    first
      | rfl
      | exact Bool.noConfusion h1
      | exact Bool.noConfusion h2
      | exact qle_lt_trans _ _ _ h1 h2
      | exact lexH1 _ _ _ h1 h2

theorem cellKeyLt_H2 : ∀ x y e : Cell,
    cellKeyLt y x = false → cellKeyLt y e = false → cellKeyLt e y = false →
    cellKeyLt x e = true ∨ (cellKeyLt x e = false ∧ cellKeyLt e x = false) := by
  intro x y e h1 h2 h3
  cases x <;> cases y <;> cases e <;>
    simp only [cellKeyLt, strLtB] at h1 h2 h3 ⊢ <;>
    first
      | trivial
      | exact Bool.noConfusion h1
      | exact Bool.noConfusion h2
      | exact Bool.noConfusion h3
      | exact h1.elim
      | exact h2.elim
      | exact h3.elim
      | exact Or.inl rfl
      | exact Or.inl trivial
      | exact Or.inr ⟨rfl, rfl⟩
      | exact Or.inr ⟨trivial, trivial⟩
      | exact qH2 _ _ _ h1 h2 h3
      | exact lexH2 _ _ _ h1 h2 h3

theorem ltPairDesc_H1 : ∀ x y e : Cell × Q,
    ltPairDesc y x = false → ltPairDesc y e = true → ltPairDesc x e = true := by
  intro x y e h1 h2
  exact qlt_le_trans e.2 y.2 x.2 h2 h1

theorem ltPairDesc_H2 : ∀ x y e : Cell × Q,
    ltPairDesc y x = false → ltPairDesc y e = false → ltPairDesc e y = false →
    ltPairDesc x e = true ∨ (ltPairDesc x e = false ∧ ltPairDesc e x = false) := by
  intro x y e h1 h2 h3
  exact qH2d x.2 y.2 e.2 h1 h2 h3

theorem ltPairAsc_H1 : ∀ x y e : Cell × Q,
    ltPairAsc y x = false → ltPairAsc y e = true → ltPairAsc x e = true := by
  intro x y e h1 h2
  exact qle_lt_trans x.2 y.2 e.2 h1 h2

theorem ltPairAsc_H2 : ∀ x y e : Cell × Q,
    ltPairAsc y x = false → ltPairAsc y e = false → ltPairAsc e y = false →
    ltPairAsc x e = true ∨ (ltPairAsc x e = false ∧ ltPairAsc e x = false) := by
  intro x y e h1 h2 h3
  exact qH2 x.2 y.2 e.2 h1 h2 h3

theorem sInsert_perm {α : Type} (lt : α → α → Bool) (x : α) (l : List α) :
    (sInsert lt x l).Perm (x :: l) := by
  induction l with
  | nil => exact List.Perm.refl _
  | cons y ys ih =>
    simp only [sInsert]
    by_cases h : lt y x = true
    · simp only [h, if_true]
      exact (ih.cons y).trans (List.Perm.swap x y ys)
    · simp only [h, if_false]
      exact List.Perm.refl _

theorem sSort_perm {α : Type} (lt : α → α → Bool) (l : List α) :
    (sSort lt l).Perm l := by
  induction l with
  | nil => exact List.Perm.refl _
  | cons x xs ih => exact (sInsert_perm lt x (sSort lt xs)).trans (ih.cons x)

theorem mem_sSort {α : Type} (lt : α → α → Bool) {a : α} {l : List α} :
    a ∈ sSort lt l ↔ a ∈ l :=
  (sSort_perm lt l).mem_iff

theorem sInsert_pairwise_tieLex {α : Type} (lt : α → α → Bool) (K : α → α → Prop)
    (H1 : ∀ x y e, lt y x = false → lt y e = true → lt x e = true)
    (H2 : ∀ x y e, lt y x = false → lt y e = false → lt e y = false →
      lt x e = true ∨ (lt x e = false ∧ lt e x = false))
    (x : α) :
    ∀ m : List α, (∀ e ∈ m, K x e) → m.Pairwise (tieLex lt K) →
      (sInsert lt x m).Pairwise (tieLex lt K) := by
  intro m
  induction m with
  | nil =>
    intro _ _
    simp [sInsert]
  | cons y ys ih =>
    intro hx hm
    rw [List.pairwise_cons] at hm
    simp only [sInsert]
    by_cases hlt : lt y x = true
    · simp only [hlt, if_true]
      rw [List.pairwise_cons]
      constructor
      · intro z hz
        rcases List.mem_cons.mp ((sInsert_perm lt x ys).mem_iff.mp hz) with hzx | hzy
        · rw [hzx]
          exact Or.inl hlt
        · exact hm.1 z hzy
      · exact ih (fun e he => hx e (List.mem_cons_of_mem y he)) hm.2
    · have hlt' : lt y x = false := by
        revert hlt
        cases lt y x <;> simp
      simp only [hlt', if_false, Bool.false_eq_true]
      rw [List.pairwise_cons]
      constructor
      · intro z hz
        rcases List.mem_cons.mp hz with hzy | hzys
        · rw [hzy]
          cases hxy : lt x y with
          | true => exact Or.inl hxy
          | false => exact Or.inr ⟨hxy, hlt', hx y (List.mem_cons_self y ys)⟩
        · rcases hm.1 z hzys with hyz | ⟨hyz1, hyz2, _⟩
          · exact Or.inl (H1 x y z hlt' hyz)
          · rcases H2 x y z hlt' hyz1 hyz2 with hxz | ⟨hxz1, hxz2⟩
            · exact Or.inl hxz
            · exact Or.inr ⟨hxz1, hxz2, hx z (List.mem_cons_of_mem y hzys)⟩
      · exact List.pairwise_cons.mpr hm

theorem sSort_pairwise_tieLex {α : Type} (lt : α → α → Bool) (K : α → α → Prop)
    (H1 : ∀ x y e, lt y x = false → lt y e = true → lt x e = true)
    (H2 : ∀ x y e, lt y x = false → lt y e = false → lt e y = false →
      lt x e = true ∨ (lt x e = false ∧ lt e x = false)) :
    ∀ l : List α, l.Pairwise K → (sSort lt l).Pairwise (tieLex lt K) := by
  intro l
  induction l with
  | nil =>
    intro _
    exact List.Pairwise.nil
  | cons x xs ih =>
    intro hl
    rw [List.pairwise_cons] at hl
    exact sInsert_pairwise_tieLex lt K H1 H2 x (sSort lt xs)
      (fun e he => hl.1 e ((sSort_perm lt xs).mem_iff.mp he)) (ih hl.2)

theorem eq_of_perm_pairwise {α : Type} {S : α → α → Prop}
    (hA : ∀ a b, S a b → ¬ S b a) :
    ∀ (l1 l2 : List α), l1.Perm l2 → l1.Pairwise S → l2.Pairwise S → l1 = l2 := by
  intro l1
  induction l1 with
  | nil =>
    intro l2 hp _ _
    exact (hp.symm.eq_nil).symm
  | cons a t1 ih =>
    intro l2 hp h1 h2
    cases l2 with
    | nil => exact absurd hp.eq_nil (by simp)
    | cons b t2 =>
      by_cases hab : a = b
      · subst hab
        rw [ih t2 hp.cons_inv (List.pairwise_cons.mp h1).2 (List.pairwise_cons.mp h2).2]
      · exfalso
        have ha2 : a ∈ b :: t2 := hp.mem_iff.mp (List.mem_cons_self a t1)
        have hb1 : b ∈ a :: t1 := hp.mem_iff.mpr (List.mem_cons_self b t2)
        rcases List.mem_cons.mp ha2 with h | ha2t
        · exact hab h
        rcases List.mem_cons.mp hb1 with h | hb1t
        · exact hab h.symm
        exact hA a b ((List.pairwise_cons.mp h1).1 b hb1t) ((List.pairwise_cons.mp h2).1 a ha2t)

theorem pairwise_trivial {α : Type} (l : List α) : l.Pairwise (fun _ _ => True) := by
  induction l with
  | nil => exact List.Pairwise.nil
  | cons a t ih => exact List.pairwise_cons.mpr ⟨fun _ _ => trivial, ih⟩

theorem pairwise_combine {α : Type} {R T : α → α → Prop} :
    ∀ {l : List α}, l.Pairwise R → l.Pairwise T → l.Pairwise (fun a b => R a b ∧ T a b) := by
  intro l
  induction l with
  | nil =>
    intro _ _
    exact List.Pairwise.nil
  | cons a t ih =>
    intro h1 h2
    rw [List.pairwise_cons] at h1 h2 ⊢
    exact ⟨fun b hb => ⟨h1.1 b hb, h2.1 b hb⟩, ih h1.2 h2.2⟩

theorem groupSumPairs_val (df : Df) (col : String) (p : Cell × Q)
    (hp : p ∈ groupSumPairs df col) : p.2 = itemSum df col p.1 := by
  rcases List.mem_map.mp hp with ⟨k, _, hk⟩
  rw [← hk]

theorem groupSumPairs_pairwise_key (df : Df) (col : String) :
    (groupSumPairs df col).Pairwise (fun a b => cellKeyLt a.1 b.1 = true ∨
      (cellKeyLt a.1 b.1 = false ∧ cellKeyLt b.1 a.1 = false)) := by
  unfold groupSumPairs sortedKeys
  rw [List.pairwise_map]
  have h := sSort_pairwise_tieLex cellKeyLt (fun _ _ => True) cellKeyLt_H1 cellKeyLt_H2
    (encounterKeys df) (pairwise_trivial _)
  exact h.imp (fun hab => by
    rcases hab with h1 | ⟨h1, h2, _⟩
    · exact Or.inl h1
    · exact Or.inr ⟨h1, h2⟩)

theorem ranked_tieKey_desc (g : List (Cell × Q)) (n : Nat)
    (hg : g.Pairwise (fun a b => cellKeyLt a.1 b.1 = true ∨
      (cellKeyLt a.1 b.1 = false ∧ cellKeyLt b.1 a.1 = false))) :
    ((sSort ltPairDesc g).take n).Pairwise tieKeyOrder := by
  have h := sSort_pairwise_tieLex ltPairDesc _ ltPairDesc_H1 ltPairDesc_H2 g hg
  refine List.Pairwise.sublist (List.take_sublist n _) (h.imp ?_)
  intro a b hab hq
  rcases hab with h1 | ⟨_, _, hk⟩
  · have h2 : ltPairDesc a b = false := qeq_not_lt' a.2 b.2 hq
    rw [h1] at h2
    exact Bool.noConfusion h2
  · exact hk

theorem ranked_tieKey_asc (g : List (Cell × Q)) (n : Nat)
    (hg : g.Pairwise (fun a b => cellKeyLt a.1 b.1 = true ∨
      (cellKeyLt a.1 b.1 = false ∧ cellKeyLt b.1 a.1 = false))) :
    ((sSort ltPairAsc g).take n).Pairwise tieKeyOrder := by
  have h := sSort_pairwise_tieLex ltPairAsc _ ltPairAsc_H1 ltPairAsc_H2 g hg
  refine List.Pairwise.sublist (List.take_sublist n _) (h.imp ?_)
  intro a b hab hq
  rcases hab with h1 | ⟨_, _, hk⟩
  · have h2 : ltPairAsc a b = false := qeq_not_lt a.2 b.2 hq
    rw [h1] at h2
    exact Bool.noConfusion h2
  · exact hk

theorem lookupTable_replace (s : Store) (t : String) (df : Df) :
    lookupTable (replaceTable s t df) t = some df := by
  unfold lookupTable replaceTable removeTable
  have key : ∀ (l : List (String × Df)),
      ((l.filter (fun p => !(p.1 == t))) ++ [(t, df)]).find? (fun p => p.1 == t) =
        some (t, df) := by
    intro l
    induction l with
    | nil => simp [List.find?]
    | cons p ps ih =>
      by_cases hp : p.1 = t
      · simpa [hp] using ih
      · have hb : (p.1 == t) = false := by simpa using hp
        simp only [List.filter_cons, hb, Bool.not_false, if_true, List.cons_append]
        rw [List.find?_cons_of_neg _ (by simp [hb])]
        exact ih
  simp [key s.tables]

theorem colIdx_nth : ∀ (h : List String) (c : String) (i : Nat),
    colIdx h c = some i → nth h i = some c := by
  intro h
  induction h with
  | nil =>
    intro c i hc
    simp [colIdx] at hc
  | cons x t ih =>
    intro c i hc
    simp only [colIdx] at hc
    by_cases hx : x = c
    · rw [if_pos hx] at hc
      cases hc
      rw [hx]
      rfl
    · rw [if_neg hx] at hc
      rcases Option.map_eq_some'.mp hc with ⟨j, hj, hji⟩
      rw [← hji]
      exact ih c j hj

theorem normRow_nth : ∀ (r : List Cell) (h : List String) (i : Nat),
    nth (normRow h r) i =
      (nth r i).map (fun c => if (nth h i).getD "" ∈ numCols then normalizeCell c else c) := by
  intro r
  induction r with
  | nil =>
    intro h i
    cases h <;> simp [normRow, nth]
  | cons c cs ih =>
    intro h i
    cases h with
    | nil =>
      cases i with
      | zero => simp [normRow, nth, (by decide : ¬ ("" ∈ numCols))]
      | succ j => simpa [normRow, nth] using ih [] j
    | cons col hs =>
      cases i with
      | zero => simp [normRow, nth]
      | succ j => simpa [normRow, nth] using ih hs j

/-- C1 (counterexample): `query_database` does not leave the store unchanged
for every SQL query string: executing DROP TABLE sales against a store whose
"sales" table is nonempty removes the table, because the connection opened by
`query_database` is read-write and sqlite autocommits DDL. -/
theorem C1_counterexample :
    (query_database (Sql.dropTable "sales") storeC1).1 ≠ storeC1 ∧
    (query_database (Sql.dropTable "sales") storeC1).1 = ⟨[]⟩ := by
  decide

/-- C1 (amended): for every SELECT-shaped query and every store,
`query_database` leaves the store unchanged and only returns the resulting
rows; the read-only guarantee holds for reads but is not enforced against
destructive statements. -/
theorem C1_amended_select_read_only (t : String) (s : Store) :
    query_database (Sql.selectAll t) s = (s, lookupTable s t) := rfl

/-- C2 (counterexample): on a directory with zero matching files the entry
point prints the no-data diagnostic and never calls `save_to_database`, but
the bare `raise SystemExit` terminates the process with exit status 0, not a
non-zero code as claimed. -/
theorem C2_counterexample :
    (mainRun [] ⟨[]⟩).map MainResult.exitCode = some 0 ∧
    (mainRun [] ⟨[]⟩).map MainResult.saveCalled = some false ∧
    (mainRun [] ⟨[]⟩).map MainResult.printed = some [noDataMsg] := by
  decide

/-- C2 (amended): whenever `load_all_weeks` yields an empty Unified Table,
the entry point prints the no-data diagnostic, does not invoke
`save_to_database`, leaves the store untouched, and terminates via SystemExit
with exit status 0 (bare `raise SystemExit`). -/
theorem C2_amended_empty_input (folder : List FsEntry) (s0 : Store) (df : Df)
    (hload : load_all_weeks folder = some df) (hemp : df.rows = []) :
    mainRun folder s0 = some ⟨[noDataMsg], false, s0, 0⟩ := by
  unfold mainRun
  rw [hload]
  simp [hemp]

/-- Witness for C2: a folder holding only a subdirectory named "sub" loads an
empty table, and the run ends with the diagnostic, no save, exit status 0. -/
theorem C2_witness :
    mainRun [FsEntry.dir "sub"] ⟨[]⟩ = some ⟨[noDataMsg], false, ⟨[]⟩, 0⟩ :=
  C2_amended_empty_input [FsEntry.dir "sub"] ⟨[]⟩ ⟨[], []⟩ (by decide) (by decide)

/-- C5: on exactly the two spec-scenario files, the Unified Table has 2 rows
tagged with Week labels "week1-menu-breakdown" and "week2-menu-breakdown",
Top-1 by quantity is Burger with summed Quantity 15, and Top-1 by revenue is
Burger with summed Net Sales 75. -/
theorem C5_concrete_scenario :
    (load_all_weeks folderC5).map (fun df => df.rows.length) = some 2 ∧
    (load_all_weeks folderC5).map (fun df => df.rows.map (fun r => getCellRow df.header r "Week")) =
      some [Cell.str "week1-menu-breakdown", Cell.str "week2-menu-breakdown"] ∧
    (load_all_weeks folderC5).map (fun df => top_items_by_quantity df 1) =
      some [(Cell.str "Burger", Q.ofInt 15)] ∧
    (load_all_weeks folderC5).map (fun df => top_items_by_revenue df 1) =
      some [(Cell.str "Burger", Q.ofInt 75)] := by
  refine ⟨by decide, by decide, by decide, by decide⟩

/-- C8 (counterexample): a directory entry that is not a regular file but
whose name matches the pattern is returned by `find_menu_csvs_in_folder`,
because the source never checks the entry kind (`os.listdir` with no
`isfile` test). -/
theorem C8_counterexample :
    find_menu_csvs_in_folder [FsEntry.dir "fake-menu-breakdown.csv"] =
      [FsEntry.dir "fake-menu-breakdown.csv"] := by
  decide

/-- C8 (amended): `find_menu_csvs_in_folder` returns exactly the directory
entries (of any kind, not only regular files) located directly in the folder
whose lowercased name contains "menu-breakdown" and ends with ".csv"; no
filtering on size, age, content, or entry kind. -/
theorem C8_amended_name_filter (folder : List FsEntry) (e : FsEntry) :
    e ∈ find_menu_csvs_in_folder folder ↔
      e ∈ folder ∧
      containsN ("menu-breakdown".data.map lowerCode) ((entryName e).data.map lowerCode) = true ∧
      endsWithN (".csv".data.map lowerCode) ((entryName e).data.map lowerCode) = true := by
  unfold find_menu_csvs_in_folder nameMatchesB
  rw [List.mem_filter]
  simp [Bool.and_eq_true]

/-- C10: a row whose Item Name is null is retained by the total-row filter
(`na=False` makes `str.contains` yield False on null, and the negation keeps
the row), and the filtered table containing it is exactly what
`save_to_database` persists as the "sales" table. -/
theorem C10_null_name_retained (df : Df) (s0 : Store) (r : List Cell)
    (hr : r ∈ df.rows) (hnull : getCellRow df.header r "Item Name" = Cell.null) :
    r ∈ (filterTotals df).rows ∧
    lookupTable (save_to_database (filterTotals df) s0) "sales" = some (filterTotals df) := by
  constructor
  · show r ∈ df.rows.filter _
    rw [List.mem_filter]
    refine ⟨hr, ?_⟩
    rw [hnull]
    rfl
  · exact lookupTable_replace s0 "sales" (filterTotals df)

/-- Witness for C10 on `dfC10`, whose single row has a null Item Name. -/
theorem C10_witness :
    [Cell.null, Cell.num ⟨2, 0⟩] ∈ (filterTotals dfC10).rows ∧
    lookupTable (save_to_database (filterTotals dfC10) ⟨[]⟩) "sales" =
      some (filterTotals dfC10) :=
  C10_null_name_retained dfC10 ⟨[]⟩ [Cell.null, Cell.num ⟨2, 0⟩] (by decide) (by decide)

/-- C6: every item appearing in the output of `top_items_by_quantity` is
reported with a summed Quantity equal to the sum of the Quantity cells over
all of that item's rows in the input, null cells contributing 0 (`itemSum`
filters the item's rows and folds their numeric contributions, skipping
nulls); sorting and truncation never alter the per-item sums. -/
theorem C6_aggregation_sum (df : Df) (n : Nat) (p : Cell × Q)
    (hp : p ∈ top_items_by_quantity df n) :
    p.2 = itemSum df "Quantity" p.1 := by
  unfold top_items_by_quantity at hp
  have h1 : p ∈ sSort ltPairDesc (groupSumPairs df "Quantity") := List.take_subset n _ hp
  have h2 : p ∈ groupSumPairs df "Quantity" := (mem_sSort _).mp h1
  exact groupSumPairs_val df "Quantity" p h2

/-- Witness for C6 on `dfC6`: Taco appears in the Top-1 with summed
Quantity 4, the null Quantity cell contributing 0. -/
theorem C6_witness : Q.ofInt 4 = itemSum dfC6 "Quantity" (Cell.str "Taco") :=
  C6_aggregation_sum dfC6 1 (Cell.str "Taco", Q.ofInt 4) (by decide)

/-- C7: whenever the entry point reaches persistence, the table stored under
"sales" is exactly the total-filtered Unified Table, and no row of that
filtered table has an Item Name containing "total" in any letter case
(null and numeric names never match). -/
theorem C7_filter_persist (folder : List FsEntry) (s0 : Store) (df : Df) (res : MainResult)
    (hload : load_all_weeks folder = some df)
    (hrun : mainRun folder s0 = some res)
    (hsave : res.saveCalled = true) :
    lookupTable res.store "sales" = some (filterTotals df) ∧
    ∀ r, r ∈ (filterTotals df).rows →
      cellContainsTotal (getCellRow df.header r "Item Name") = false := by
  unfold mainRun at hrun
  rw [hload] at hrun
  simp only [Option.map_some'] at hrun
  have hres := Option.some.inj hrun
  constructor
  · by_cases hemp : df.rows.isEmpty
    · rw [if_pos hemp] at hres
      rw [← hres] at hsave
      simp at hsave
    · rw [if_neg hemp] at hres
      rw [← hres]
      exact lookupTable_replace s0 "sales" (filterTotals df)
  · intro r hr
    have hf := List.of_mem_filter hr
    cases hcc : cellContainsTotal (getCellRow df.header r "Item Name") with
    | false => rfl
    | true =>
      rw [hcc] at hf
      exact Bool.noConfusion hf

/-- Witness for C7: on `folderC7` (one file with a "Grand Total" row and a
Taco row) the store holds exactly the filtered table, and the surviving Taco
row's Item Name does not contain "total". -/
theorem C7_witness :
    lookupTable resC7.store "sales" = some (filterTotals dfC7) ∧
    cellContainsTotal (getCellRow dfC7.header
      [Cell.str "Taco", Cell.num ⟨3, 0⟩, Cell.str "w-menu-breakdown"] "Item Name") = false := by
  have h := C7_filter_persist folderC7 ⟨[]⟩ dfC7 resC7 (by decide) (by decide) (by decide)
  exact ⟨h.1, h.2 _ (by decide)⟩

/-- C4: `normalize_menu_df` never raises on cell contents (it is a total
function of the table): column names are stripped; for every configured
numeric column present, each cell is stringified, stripped of commas and
dollar signs, and parsed, an unparsable cell becoming null; afterwards every
configured numeric column's cells are numeric or null, never raw text; the
row count is preserved; and cells in positions outside the configured
columns (in particular, when a configured column is absent) are untouched. -/
theorem C4_normalize_contract (df : Df) :
    (∀ col, col ∈ numCols → ∀ r, r ∈ (normalize_menu_df df).rows →
        getCellRow (normalize_menu_df df).header r col = Cell.null ∨
        ∃ q, getCellRow (normalize_menu_df df).header r col = Cell.num q) ∧
    (normalize_menu_df df).rows.length = df.rows.length ∧
    (∀ r0, r0 ∈ df.rows → normRow (df.header.map trimStr) r0 ∈ (normalize_menu_df df).rows) ∧
    (∀ r0 i col c, nth (df.header.map trimStr) i = some col → col ∈ numCols →
        nth r0 i = some c →
        nth (normRow (df.header.map trimStr) r0) i =
          some (match parseNumber ⟨stripMoneyChars (pyStr c).data⟩ with
                | some q => Cell.num q
                | none => Cell.null)) ∧
    (∀ r0 i, (nth (df.header.map trimStr) i).getD "" ∉ numCols →
        nth (normRow (df.header.map trimStr) r0) i = nth r0 i) := by
  refine ⟨?_, ?_, ?_, ?_, ?_⟩
  · intro col hcol r hr
    simp only [normalize_menu_df] at hr ⊢
    rcases List.mem_map.mp hr with ⟨r0, _, hr0⟩
    rw [← hr0]
    unfold getCellRow
    cases hci : colIdx (df.header.map trimStr) col with
    | none =>
      simp only [hci]
      first
        | exact Or.inl rfl
        | exact Or.inl trivial
    | some i =>
      simp only [hci]
      have hcn := colIdx_nth (df.header.map trimStr) col i hci
      rw [normRow_nth r0 (df.header.map trimStr) i, hcn]
      cases hr0i : nth r0 i with
      | none => exact Or.inl rfl
      | some c =>
        simp only [Option.map_some', Option.getD_some]
        rw [if_pos hcol]
        cases hp : parseNumber ⟨stripMoneyChars (pyStr c).data⟩ with
        | none =>
          simp only [normalizeCell, hp]
          first
            | exact Or.inl rfl
            | exact Or.inl trivial
        | some q =>
          simp only [normalizeCell, hp]
          exact Or.inr ⟨q, rfl⟩
  · simp [normalize_menu_df]
  · intro r0 hr0
    simp only [normalize_menu_df]
    exact List.mem_map_of_mem _ hr0
  · intro r0 i col c hcol hmem hc
    rw [normRow_nth r0 (df.header.map trimStr) i, hc, hcol]
    simp only [Option.map_some']
    rw [show (some col).getD "" = col from rfl, if_pos hmem]
    rfl
  · intro r0 i hnot
    rw [normRow_nth r0 (df.header.map trimStr) i]
    cases hr0i : nth r0 i with
    | none => rfl
    | some c =>
      simp only [Option.map_some']
      rw [if_neg hnot]

/-- Witness for C4 on `dfC4`, applying the contract to the "Quantity" column
of the normalized row (its "N/A" cell coerces to null, not an error). -/
theorem C4_witness :
    getCellRow (normalize_menu_df dfC4).header
      (normRow (dfC4.header.map trimStr) rowC4) "Quantity" = Cell.null ∨
    ∃ q, getCellRow (normalize_menu_df dfC4).header
      (normRow (dfC4.header.map trimStr) rowC4) "Quantity" = Cell.num q :=
  (C4_normalize_contract dfC4).1 "Quantity" (by decide) _
    ((C4_normalize_contract dfC4).2.2.1 rowC4 (by decide))

/-- C3 (counterexample): equal-sum groups do not appear in original group
encounter order: in `dfC3` the groups are encountered in the order B, A with
equal sums 5, yet every ranking lists A before B, because
`groupby(sort=True)` sorts the group keys before `sort_values` runs. -/
theorem C3_counterexample :
    top_items_by_quantity dfC3 2 = [(Cell.str "A", ⟨5, 0⟩), (Cell.str "B", ⟨5, 0⟩)] ∧
    encounterKeys dfC3 = [Cell.str "B", Cell.str "A"] ∧
    (top_items_by_quantity dfC3 2).map Prod.fst ≠ encounterKeys dfC3 := by
  decide

/-- C3 (amended): in each ranking operation, groups whose summed measure is
equal appear in weakly ascending group-key (Item Name) order — the order
`groupby(sort=True)` produces and the stable sort preserves — not in the
original encounter order. -/
theorem C3_amended_tie_order (df : Df) (category : String) (n : Nat) :
    (top_items_by_quantity df n).Pairwise tieKeyOrder ∧
    (top_items_by_revenue df n).Pairwise tieKeyOrder ∧
    (bottom_items_by_quantity df n).Pairwise tieKeyOrder ∧
    (bottom_items_by_category df category n).Pairwise tieKeyOrder :=
  ⟨ranked_tieKey_desc _ n (groupSumPairs_pairwise_key df "Quantity"),
   ranked_tieKey_desc _ n (groupSumPairs_pairwise_key df "Net Sales"),
   ranked_tieKey_asc _ n (groupSumPairs_pairwise_key df "Quantity"),
   ranked_tieKey_asc _ n (groupSumPairs_pairwise_key (filterCategory df category) "Quantity")⟩

/-- C9: when N covers all distinct items and no two items have equal summed
Quantity, `bottom_items_by_quantity` is exactly the reverse of
`top_items_by_quantity`. -/
theorem C9_top_bottom_reverse (df : Df) (n : Nat)
    (hn : (groupSumPairs df "Quantity").length ≤ n)
    (hd : (groupSumPairs df "Quantity").Pairwise (fun p q => qeqB p.2 q.2 = false)) :
    bottom_items_by_quantity df n = (top_items_by_quantity df n).reverse := by
  have hpermA := sSort_perm ltPairAsc (groupSumPairs df "Quantity")
  have hpermD := sSort_perm ltPairDesc (groupSumPairs df "Quantity")
  have hLA : (sSort ltPairAsc (groupSumPairs df "Quantity")).length ≤ n := by
    rw [hpermA.length_eq]
    exact hn
  have hLD : (sSort ltPairDesc (groupSumPairs df "Quantity")).length ≤ n := by
    rw [hpermD.length_eq]
    exact hn
  unfold bottom_items_by_quantity top_items_by_quantity
  rw [List.take_of_length_le hLA, List.take_of_length_le hLD]
  have hsymm : ∀ {p q : Cell × Q}, qeqB p.2 q.2 = false → qeqB q.2 p.2 = false := by
    intro p q h
    rw [← qeqB_symm]
    exact h
  have hdA := (List.Perm.pairwise_iff hsymm hpermA).mpr hd
  have hdD := (List.Perm.pairwise_iff hsymm hpermD).mpr hd
  have hsA := sSort_pairwise_tieLex ltPairAsc (fun _ _ => True) ltPairAsc_H1 ltPairAsc_H2
    (groupSumPairs df "Quantity") (pairwise_trivial _)
  have hsD := sSort_pairwise_tieLex ltPairDesc (fun _ _ => True) ltPairDesc_H1 ltPairDesc_H2
    (groupSumPairs df "Quantity") (pairwise_trivial _)
  have hstrictA : (sSort ltPairAsc (groupSumPairs df "Quantity")).Pairwise
      (fun p q => qltB p.2 q.2 = true) := by
    refine (pairwise_combine hsA hdA).imp ?_
    intro a b hab
    rcases hab with ⟨ht, hne⟩
    rcases ht with h1 | ⟨h1, h2, _⟩
    · exact h1
    · rw [qltB_total_cross a.2 b.2 h1 h2] at hne
      exact Bool.noConfusion hne
  have hstrictD : (sSort ltPairDesc (groupSumPairs df "Quantity")).Pairwise
      (fun p q => qltB q.2 p.2 = true) := by
    refine (pairwise_combine hsD hdD).imp ?_
    intro a b hab
    rcases hab with ⟨ht, hne⟩
    rcases ht with h1 | ⟨h1, h2, _⟩
    · exact h1
    · rw [qltB_total_cross a.2 b.2 h2 h1] at hne
      exact Bool.noConfusion hne
  have hrev : ((sSort ltPairDesc (groupSumPairs df "Quantity")).reverse).Pairwise
      (fun p q => qltB p.2 q.2 = true) := by
    rw [List.pairwise_reverse]
    exact hstrictD
  have hperm2 : (sSort ltPairAsc (groupSumPairs df "Quantity")).Perm
      ((sSort ltPairDesc (groupSumPairs df "Quantity")).reverse) :=
    hpermA.trans (hpermD.symm.trans (List.reverse_perm _).symm)
  have hasymm : ∀ (p q : Cell × Q), qltB p.2 q.2 = true → ¬ qltB q.2 p.2 = true := by
    intro p q h hq
    rw [qltB_asymm p.2 q.2 h] at hq
    exact Bool.noConfusion hq
  exact eq_of_perm_pairwise hasymm _ _ hperm2 hstrictA hrev

/-- Witness for C9 on `dfC9` (items A and B with distinct sums 1 and 3,
N = 2 covering both). -/
theorem C9_witness :
    bottom_items_by_quantity dfC9 2 = (top_items_by_quantity dfC9 2).reverse :=
  C9_top_bottom_reverse dfC9 2 (by decide) (by decide)
